import Mathlib

/-!
Verification of the operational control plane of the StockSage service:
sliding-window rate limiting (lib/rate_limiting.py), lifecycle management,
persistent state and health checks (lib/service_manager.py).

Timestamps and load percentages are modelled as rationals (Python's
time.time() and float arithmetic over a continuous clock); Python's int()
truncation toward zero is modelled by ratTrunc.
-/

/-- Python int() applied to a rational: truncation toward zero. -/
def ratTrunc (q : ℚ) : Int := q.num.tdiv q.den

/-- Rate-limit info dictionary returned by RateLimiter.is_allowed
(the reset_time ISO string, derived from reset, is elided). -/
structure RateInfo where
  limit : Nat
  remaining : Int
  reset : Int
deriving DecidableEq, Repr

/-- The while-loop in RateLimiter.is_allowed: pop entries from the front of
the deque while the front entry is at most now - window_seconds. -/
def evictOld (window : Nat) (now : ℚ) : List ℚ → List ℚ
  | [] => []
  | t :: ts => if t ≤ now - (window : ℚ) then evictOld window now ts else t :: ts

/-- RateLimiter.is_allowed for one identifier: evict old entries, admit iff
the remaining count is strictly below max_requests, append now when admitted,
and report limit, remaining and reset. Returns
(is_allowed, rate_info, updated deque for the identifier). -/
def is_allowed (limit window : Nat) (now : ℚ) (times : List ℚ) :
    Bool × RateInfo × List ℚ :=
  let request_times := evictOld window now times
  let current_requests := request_times.length
  let allowed : Bool := current_requests < limit
  let request_times2 := if allowed then request_times ++ [now] else request_times
  let reset_time : Int :=
    if request_times2 = [] then ratTrunc now else ratTrunc (now + (window : ℚ))
  let remaining : Int :=
    max 0 ((limit : Int) - current_requests - (if allowed then 1 else 0))
  (allowed, ⟨limit, remaining, reset_time⟩, request_times2)

/-- Admission check as the claim words it (for comparison with is_allowed):
evict only entries strictly older than now - window_seconds, and always
return reset = now + window_seconds. -/
def evictOldClaim (window : Nat) (now : ℚ) : List ℚ → List ℚ
  | [] => []
  | t :: ts => if t < now - (window : ℚ) then evictOldClaim window now ts else t :: ts

/-- The claim's description of the check, differing from is_allowed only in
the strict eviction cutoff and the unconditional exact reset value. -/
def is_allowed_claim (limit window : Nat) (now : ℚ) (times : List ℚ) :
    Bool × RateInfo × List ℚ :=
  let request_times := evictOldClaim window now times
  let current_requests := request_times.length
  let allowed : Bool := current_requests < limit
  let request_times2 := if allowed then request_times ++ [now] else request_times
  let reset_time : Int := ratTrunc (now + (window : ℚ))
  let remaining : Int :=
    max 0 ((limit : Int) - current_requests - (if allowed then 1 else 0))
  (allowed, ⟨limit, remaining, reset_time⟩, request_times2)

/-- State of an identifier after k consecutive checks at instant now,
starting from an empty deque. -/
def checkRunState (limit window : Nat) (now : ℚ) : Nat → List ℚ
  | 0 => []
  | k + 1 => (is_allowed limit window now (checkRunState limit window now k)).2.2

/-- Entries that survive eviction: strictly younger than now - window_seconds
ago (the code keeps exactly these when the deque is in time order). -/
def retained (window : Nat) (now : ℚ) (ts : List ℚ) : List ℚ :=
  ts.filter fun t => decide (now - (window : ℚ) < t)

/-- State of AdaptiveRateLimiter: base limit and window from construction,
the adaptive multiplier (initially 1.0), the bounded load-sample history
(deque of maxlen 10), the last-adjustment instant, and the inner rate
limiter's max_requests as rewritten by adjustments. -/
structure AdaptiveState where
  base_limit : Nat
  window_seconds : Nat
  current_multiplier : ℚ
  load_samples : List ℚ
  last_adjustment : ℚ
  max_requests : Int
deriving DecidableEq, Repr

/-- AdaptiveRateLimiter.__init__ at construction instant t0. -/
def initAdaptive (base window : Nat) (t0 : ℚ) : AdaptiveState :=
  { base_limit := base, window_seconds := window, current_multiplier := 1,
    load_samples := [], last_adjustment := t0, max_requests := (base : Int) }

/-- deque(maxlen=10).append: append on the right, evicting from the left once
the capacity of 10 is exceeded. -/
def pushSample (xs : List ℚ) (x : ℚ) : List ℚ :=
  let ys := xs ++ [x]
  ys.drop (ys.length - 10)

/-- Mean of the load samples, sum / len as in _adjust_rate_limit. -/
def avgLoad (xs : List ℚ) : ℚ := xs.sum / (xs.length : ℚ)

/-- AdaptiveRateLimiter._adjust_rate_limit: no-op on an empty history;
otherwise tighten by 0.8 (clamped below at 0.5) when the mean load exceeds 80,
relax by 1.1 (clamped above at 2.0) when it is below 40, and rewrite the inner
limiter's max_requests to int(base_limit * multiplier). -/
def adjust_rate_limit (s : AdaptiveState) : AdaptiveState :=
  if s.load_samples = [] then s
  else
    let avg := avgLoad s.load_samples
    let m :=
      if avg > 80 then max (1/2) (s.current_multiplier * (4/5))
      else if avg < 40 then min 2 (s.current_multiplier * (11/10))
      else s.current_multiplier
    { s with current_multiplier := m,
             max_requests := ratTrunc ((s.base_limit : ℚ) * m) }

/-- AdaptiveRateLimiter.update_system_load: push the averaged load score,
then adjust the limit and record the adjustment instant when strictly more
than 30 seconds have elapsed since the last adjustment. -/
def update_system_load (s : AdaptiveState) (cpu mem now : ℚ) : AdaptiveState :=
  let s1 := { s with load_samples := pushSample s.load_samples ((cpu + mem) / 2) }
  if now - s1.last_adjustment > 30 then
    { adjust_rate_limit s1 with last_adjustment := now }
  else s1

/-- The update as the claim words it (for comparison with update_system_load):
adjustment fires whenever at least 30 seconds have elapsed. -/
def update_system_load_claim (s : AdaptiveState) (cpu mem now : ℚ) : AdaptiveState :=
  let s1 := { s with load_samples := pushSample s.load_samples ((cpu + mem) / 2) }
  if now - s1.last_adjustment ≥ 30 then
    { adjust_rate_limit s1 with last_adjustment := now }
  else s1

/-- Folding a whole sequence of load inputs (cpu, mem, now) through
update_system_load. -/
def runUpdates (s : AdaptiveState) (inputs : List (ℚ × ℚ × ℚ)) : AdaptiveState :=
  inputs.foldl (fun st p => update_system_load st p.1 p.2.1 p.2.2) s

/-- Observable actions of the ServiceManager shutdown sequence and its
warning path. -/
inductive SAction where
  | persistState : String → SAction
  | setShutdownEvent : SAction
  | cancelBackgroundTasks : SAction
  | runCleanupHandlers : SAction
  | warnAlreadyShuttingDown : SAction
deriving DecidableEq, Repr

/-- State of ServiceManager relevant to shutdown: the is_shutting_down guard,
the shutdown event, and the trace of actions performed so far. -/
structure SMState where
  is_shutting_down : Bool
  shutdown_event : Bool
  trace : List SAction
deriving DecidableEq, Repr

/-- ServiceManager.__init__: not shutting down, event clear, nothing done. -/
def initSM : SMState :=
  { is_shutting_down := false, shutdown_event := false, trace := [] }

/-- ServiceManager.shutdown: when a shutdown is already in progress, log a
warning and return; otherwise set the guard and run the sequence persist
shutting_down, set the shutdown event, cancel background tasks, run cleanup
handlers, persist stopped. The guard test and its set are separated by no
await in the source, so under the cooperative (asyncio) execution model the
pair is atomic and concurrently dispatched calls serialize around it. -/
def SMState.shutdown (sm : SMState) : SMState :=
  if sm.is_shutting_down then
    { sm with trace := sm.trace ++ [SAction.warnAlreadyShuttingDown] }
  else
    { is_shutting_down := true, shutdown_event := true,
      trace := sm.trace ++
        [SAction.persistState "shutting_down", SAction.setShutdownEvent,
         SAction.cancelBackgroundTasks, SAction.runCleanupHandlers,
         SAction.persistState "stopped"] }

/-- n successive calls to shutdown starting from a freshly started manager. -/
def iterShutdown : Nat → SMState
  | 0 => initSM
  | n + 1 => (iterShutdown n).shutdown

/-- How many times the cleanup sequence ran in a trace. -/
def cleanupRuns (sm : SMState) : Nat :=
  sm.trace.count SAction.runCleanupHandlers

/-- ServiceManager._run_cleanup_handlers over the registered handlers, each
abstracted to its name and whether its invocation raises. The fold returns
the invocation log (handlers actually called, in order) and the error log
(handlers whose exception was caught and logged). -/
def run_cleanup_handlers (handlers : List (String × Bool)) :
    List String × List String :=
  handlers.foldl
    (fun acc h => (acc.1 ++ [h.1], if h.2 then acc.2 ++ [h.1] else acc.2))
    ([], [])

/-- Behavior of one registered health-check function: a returned boolean or a
raised exception message. -/
inductive CheckRes where
  | ok : Bool → CheckRes
  | err : String → CheckRes
deriving DecidableEq, Repr

/-- One entry of the per-check results dict (timestamps elided). -/
structure CheckOutcome where
  status : String
  error : Option String
deriving DecidableEq, Repr

/-- Return value of HealthChecker.run_health_checks (timestamps elided). -/
structure HealthReport where
  overall_status : String
  checks : List (String × CheckOutcome)
deriving DecidableEq, Repr

/-- HealthChecker.run_health_checks: iterate the registered checks, mapping a
returned truthy value to a healthy result, a falsy one to unhealthy, and a
raised exception to an error result capturing the message; the overall flag
starts true and is cleared by any falsy or raising check. -/
def healthStep (acc : List (String × CheckOutcome) × Bool)
    (c : String × CheckRes) : List (String × CheckOutcome) × Bool :=
  match c.2 with
  | CheckRes.ok b =>
      (acc.1 ++ [(c.1, ⟨if b then "healthy" else "unhealthy", none⟩)],
       if b then acc.2 else false)
  | CheckRes.err e =>
      (acc.1 ++ [(c.1, ⟨"error", some e⟩)], false)

def run_health_checks (checks : List (String × CheckRes)) : HealthReport :=
  let acc := checks.foldl healthStep ([], true)
  { overall_status := if acc.2 then "healthy" else "unhealthy",
    checks := acc.1 }

/-- Result entry a single check behavior maps to (characterization used in
the statements about run_health_checks). -/
def outcomeOf : CheckRes → CheckOutcome
  | CheckRes.ok b => ⟨if b then "healthy" else "unhealthy", none⟩
  | CheckRes.err e => ⟨"error", some e⟩

/-- Whether a check behavior counts as healthy toward the aggregate. -/
def isHealthyRes : CheckRes → Bool
  | CheckRes.ok b => b
  | CheckRes.err _ => false

/-- Content of a state file on disk: a parseable JSON object (good) or a
partially written, unparseable one (corrupt). -/
inductive FileContent (V : Type) where
  | good : List (String × V) → FileContent V
  | corrupt : FileContent V
deriving DecidableEq

/-- The on-disk pair owned by PersistentState: the primary state file and its
.backup sibling; none means the path does not exist. -/
structure Fs (V : Type) where
  primary : Option (FileContent V)
  backup : Option (FileContent V)
deriving DecidableEq

/-- Fate of the write step inside save_state: it succeeds, or it fails midway
leaving a truncated file, or it fails leaving no file. -/
inductive WriteOutcome where
  | ok : WriteOutcome
  | failTruncating : WriteOutcome
  | failMissing : WriteOutcome
deriving DecidableEq, Repr

/-- PersistentState.save_state: rename any existing primary file to the
backup path, then write the new content to the primary path; when the write
fails the except branch restores the backup over the primary path if a backup
exists (os.rename overwrites). -/
def save_state {V : Type} (fs : Fs V) (st : List (String × V))
    (o : WriteOutcome) : Fs V :=
  let fs1 : Fs V :=
    match fs.primary with
    | some c => { primary := none, backup := some c }
    | none => fs
  match o with
  | WriteOutcome.ok => { fs1 with primary := some (FileContent.good st) }
  | WriteOutcome.failTruncating =>
      let fs2 : Fs V := { fs1 with primary := some FileContent.corrupt }
      match fs2.backup with
      | some c => { primary := some c, backup := none }
      | none => fs2
  | WriteOutcome.failMissing =>
      match fs1.backup with
      | some c => { primary := some c, backup := none }
      | none => fs1

/-- PersistentState.load_state: a missing primary file yields the empty
state, a corrupt one is caught, logged and yields the empty state; the
function is total, never surfacing an error to the caller. -/
def load_state {V : Type} (fs : Fs V) : List (String × V) :=
  match fs.primary with
  | some (FileContent.good m) => m
  | some FileContent.corrupt => []
  | none => []

/-- Python dict assignment state[key] = value: replace in place, else append. -/
def dictSet {V : Type} : List (String × V) → String → V → List (String × V)
  | [], k, v => [(k, v)]
  | p :: rest, k, v =>
      if p.1 = k then (k, v) :: rest else p :: dictSet rest k v

/-- Python dict .get lookup. -/
def dictGet {V : Type} : List (String × V) → String → Option V
  | [], _ => none
  | p :: rest, k => if p.1 = k then some p.2 else dictGet rest k

/-- Python dict membership test (key in state). -/
def dictContains {V : Type} (m : List (String × V)) (k : String) : Bool :=
  m.any fun p => decide (p.1 = k)

/-- Python del state[key] for a present key. -/
def dictDel {V : Type} : List (String × V) → String → List (String × V)
  | [], _ => []
  | p :: rest, k => if p.1 = k then rest else p :: dictDel rest k

/-- PersistentState: the in-memory dict plus the on-disk pair. -/
structure PState (V : Type) where
  state : List (String × V)
  fs : Fs V
deriving DecidableEq

/-- PersistentState.set: update the in-memory dict, then save_state. -/
def PState.set {V : Type} (ps : PState V) (k : String) (v : V)
    (o : WriteOutcome) : PState V :=
  let st := dictSet ps.state k v
  { state := st, fs := save_state ps.fs st o }

/-- PersistentState.get: in-memory lookup with default. -/
def PState.get {V : Type} (ps : PState V) (k : String) (d : V) : V :=
  (dictGet ps.state k).getD d

/-- PersistentState.delete: remove the key and save only when it is present;
the boolean reports whether a save (file rewrite) occurred. -/
def PState.delete {V : Type} (ps : PState V) (k : String) (o : WriteOutcome) :
    PState V × Bool :=
  if dictContains ps.state k then
    let st := dictDel ps.state k
    ({ state := st, fs := save_state ps.fs st o }, true)
  else (ps, false)

/-- HTTP response as the middleware observes and produces it. -/
structure Resp where
  status : Nat
  headers : List (String × String)
  body : String
deriving DecidableEq

/-- The middleware picks the Twilio limiter for the webhook path and the IP
limiter otherwise; a limiter is its (max_requests, window_seconds, deque). -/
def select_limiter (path : String) (tw ip : Nat × Nat × List ℚ) :
    Nat × Nat × List ℚ :=
  if path = "/receive-message" then tw else ip

/-- rate_limit_middleware: run the admission check on the selected limiter;
on rejection return a 429 response carrying the rate-limit headers and a
Retry-After of the limiter window; on admission return the downstream
response with the rate-limit headers appended. Identifier resolution and the
outer exception fallback (reachable only if the limiter itself raises) are
elided. -/
def rate_limit_middleware (path : String) (tw ip : Nat × Nat × List ℚ)
    (now : ℚ) (next_response : Resp) : Resp :=
  let sel := select_limiter path tw ip
  let r := is_allowed sel.1 sel.2.1 now sel.2.2
  if r.1 = false then
    { status := 429,
      headers := [("X-RateLimit-Limit", toString r.2.1.limit),
                  ("X-RateLimit-Remaining", toString r.2.1.remaining),
                  ("X-RateLimit-Reset", toString r.2.1.reset),
                  ("Retry-After", toString sel.2.1)],
      body := "Rate limit exceeded" }
  else
    { next_response with
      headers := next_response.headers ++
        [("X-RateLimit-Limit", toString r.2.1.limit),
         ("X-RateLimit-Remaining", toString r.2.1.remaining),
         ("X-RateLimit-Reset", toString r.2.1.reset)] }

theorem evictOld_eq_retained (window : Nat) (now : ℚ) (ts : List ℚ)
    (hsort : ts.Pairwise (· ≤ ·)) :
    evictOld window now ts = retained window now ts := by
  induction ts with
  | nil => rfl
  | cons t ts ih =>
    rcases List.pairwise_cons.mp hsort with ⟨h1, h2⟩
    by_cases hc : t ≤ now - (window : ℚ)
    · rw [evictOld, if_pos hc, ih h2, retained, retained, List.filter_cons]
      simp [not_lt.mpr hc]
    · have hlt : now - (window : ℚ) < t := not_le.mp hc
      rw [evictOld, if_neg hc, retained, List.filter_cons]
      simp only [hlt, decide_eq_true_eq, if_true, decide_True, if_pos]
      rw [List.filter_eq_self.mpr]
      intro a ha
      exact decide_eq_true (lt_of_lt_of_le hlt (h1 a ha))

theorem evictOld_replicate (window : Nat) (hw : 1 ≤ window) (now : ℚ) (m : Nat) :
    evictOld window now (List.replicate m now) = List.replicate m now := by
  have hpos : (0 : ℚ) < (window : ℚ) := by exact_mod_cast hw
  cases m with
  | zero => rfl
  | succ k =>
    rw [List.replicate_succ, evictOld, if_neg]
    exact not_le.mpr (by linarith)

theorem checkRunState_eq (limit window : Nat) (hw : 1 ≤ window) (now : ℚ) (k : Nat) :
    checkRunState limit window now k = List.replicate (min k limit) now := by
  induction k with
  | zero => simp [checkRunState]
  | succ k ih =>
    rw [checkRunState, ih, is_allowed]
    simp only [evictOld_replicate window hw now, List.length_replicate]
    by_cases hk : k < limit
    · have hmin : min k limit = k := Nat.min_eq_left (Nat.le_of_lt hk)
      have hmin2 : min (k + 1) limit = k + 1 := Nat.min_eq_left hk
      simp only [hmin, hk, hmin2, decide_True, if_true]
      exact (List.replicate_succ' k now).symm
    · have hmin : min k limit = limit := Nat.min_eq_right (Nat.le_of_not_lt hk)
      have hmin2 : min (k + 1) limit = limit :=
        Nat.min_eq_right (Nat.le_trans (Nat.le_of_not_lt hk) (Nat.le_succ k))
      simp [hmin, hmin2]

theorem update_multiplier_bounds (s : AdaptiveState) (cpu mem now : ℚ)
    (h1 : 1/2 ≤ s.current_multiplier) (h2 : s.current_multiplier ≤ 2) :
    1/2 ≤ (update_system_load s cpu mem now).current_multiplier ∧
      (update_system_load s cpu mem now).current_multiplier ≤ 2 := by
  simp only [update_system_load]
  split
  · simp only [adjust_rate_limit]
    split
    · exact ⟨h1, h2⟩
    · dsimp only
      split
      · refine ⟨le_max_left _ _, max_le (by norm_num) ?_⟩
        have := mul_le_mul_of_nonneg_right h2 (by norm_num : (0:ℚ) ≤ 4/5)
        linarith
      · split
        · refine ⟨le_min (by norm_num) ?_, min_le_left _ _⟩
          have := mul_le_mul_of_nonneg_right h1 (by norm_num : (0:ℚ) ≤ 11/10)
          linarith
        · exact ⟨h1, h2⟩
  · exact ⟨h1, h2⟩

theorem runUpdates_bounds (inputs : List (ℚ × ℚ × ℚ)) :
    ∀ s : AdaptiveState,
      1/2 ≤ s.current_multiplier → s.current_multiplier ≤ 2 →
      1/2 ≤ (runUpdates s inputs).current_multiplier ∧
        (runUpdates s inputs).current_multiplier ≤ 2 := by
  induction inputs with
  | nil => intro s h1 h2; exact ⟨h1, h2⟩
  | cons p ps ih =>
    intro s h1 h2
    have hstep := update_multiplier_bounds s p.1 p.2.1 p.2.2 h1 h2
    simpa only [runUpdates, List.foldl_cons] using
      ih (update_system_load s p.1 p.2.1 p.2.2) hstep.1 hstep.2

/-- C1, counterexample: the check does not behave as the claim words it.
With limit 1 and window 60, an entry admitted at instant 0 and re-checked at
instant 60 sits exactly at the cutoff now - window_seconds: the code evicts it
(it uses a non-strict comparison) and admits, while the claim's strict
"older than" eviction would retain it and reject. With limit 0 the post-check
deque is empty and the code returns reset = int(now), not now + window_seconds.
With a fractional now the code returns the truncation int(now + window), which
differs from now + window_seconds. -/
theorem C1_counterexample :
    ((is_allowed 1 60 60 [0]).1 = true ∧ (is_allowed_claim 1 60 60 [0]).1 = false) ∧
    ((is_allowed 0 60 5 []).2.1.reset = 5 ∧
      (is_allowed_claim 0 60 5 []).2.1.reset = 65) ∧
    (((is_allowed 1 60 (1/2) []).2.1.reset : ℚ) = 60 ∧
      ((1 : ℚ)/2 + 60 ≠ 60)) := by
  refine ⟨⟨?_, ?_⟩, ⟨?_, ?_⟩, ⟨?_, ?_⟩⟩
  · norm_num [is_allowed, evictOld]
  · norm_num [is_allowed_claim, evictOldClaim]
  · norm_num [is_allowed, evictOld, ratTrunc]
  · norm_num [is_allowed_claim, evictOldClaim, ratTrunc]
  · norm_num [is_allowed, evictOld, ratTrunc]
    decide
  · norm_num

/-- C1 (amended): for a deque in time order and a positive window,
is_allowed evicts exactly the instants at or older than now - window_seconds,
admits iff the count of retained instants is strictly below the limit, appends
now exactly when admitted, reports the limit, reports
remaining = max(0, limit - count - (1 if admitted)), reports
reset = int(now + window_seconds) whenever the limit is at least 1, and an
instant at or past the window boundary never survives into the new deque;
consequently, for checks repeated at one instant starting from an empty deque,
the k-th check is admitted exactly when k is at most the limit (so the
limit-th is admitted and the (limit+1)-th rejected). -/
theorem C1_rate_limiter_check (limit window : Nat) (now : ℚ) (ts : List ℚ)
    (hsort : ts.Pairwise (· ≤ ·)) (hw : 1 ≤ window) :
    (evictOld window now ts = retained window now ts) ∧
    ((is_allowed limit window now ts).1 =
        decide ((retained window now ts).length < limit)) ∧
    ((is_allowed limit window now ts).2.2 =
        retained window now ts ++
          (if (retained window now ts).length < limit then [now] else [])) ∧
    ((is_allowed limit window now ts).2.1.limit = limit) ∧
    ((is_allowed limit window now ts).2.1.remaining =
        max 0 ((limit : Int) - (retained window now ts).length -
          (if (retained window now ts).length < limit then 1 else 0))) ∧
    (1 ≤ limit →
        (is_allowed limit window now ts).2.1.reset = ratTrunc (now + (window : ℚ))) ∧
    (∀ t ∈ ts, t ≤ now - (window : ℚ) → t ∉ (is_allowed limit window now ts).2.2) ∧
    (∀ k, (is_allowed limit window now (checkRunState limit window now k)).1 =
        decide (k < limit)) := by
  have he := evictOld_eq_retained window now ts hsort
  have hwq : (0 : ℚ) < (window : ℚ) := by exact_mod_cast hw
  refine ⟨he, ?_, ?_, ?_, ?_, ?_, ?_, ?_⟩
  · simp only [is_allowed, he]
  · simp only [is_allowed, he]
    by_cases hlen : (retained window now ts).length < limit <;> simp [hlen]
  · simp only [is_allowed, he]
  · simp only [is_allowed, he]
    by_cases hlen : (retained window now ts).length < limit <;> simp [hlen]
  · intro hl
    by_cases hlen : (retained window now ts).length < limit
    · simp [is_allowed, he, hlen]
    · have hne : retained window now ts ≠ [] := by
        have h1 : limit ≤ (retained window now ts).length := Nat.le_of_not_lt hlen
        exact List.length_pos.mp (lt_of_lt_of_le hl h1)
      simp [is_allowed, he, hlen, hne]
  · intro t ht hold
    have hnf : t ∉ retained window now ts := by
      intro h
      have hp := (List.mem_filter.mp h).2
      have : now - (window : ℚ) < t := of_decide_eq_true hp
      linarith
    simp only [is_allowed, he]
    intro hmem
    split at hmem
    · rcases List.mem_append.mp hmem with h | h
      · exact hnf h
      · have : t = now := List.mem_singleton.mp h
        rw [this] at hold
        linarith
    · exact hnf hmem
  · intro k
    rw [checkRunState_eq limit window hw now k]
    simp only [is_allowed, evictOld_replicate window hw now, List.length_replicate]
    by_cases hk : k < limit
    · rw [Nat.min_eq_left (Nat.le_of_lt hk)]
    · rw [Nat.min_eq_right (Nat.le_of_not_lt hk)]
      simp [hk, Nat.lt_irrefl]

/-- C1, witness: a concrete instantiation of the amended theorem at limit 2,
window 60, now 100, deque [30, 50]; the 30 entry is evicted, the 50 entry is
retained, so the check admits. -/
theorem C1_witness : (is_allowed 2 60 100 [30, 50]).1 = true := by
  have h := (C1_rate_limiter_check 2 60 100 [30, 50]
    (by norm_num [List.pairwise_cons]) (by norm_num)).2.1
  rw [h]
  norm_num [retained]

theorem pushSample_ne_nil (xs : List ℚ) (x : ℚ) : pushSample xs x ≠ [] := by
  simp only [pushSample]
  intro h
  have hlen := congrArg List.length h
  simp [List.length_drop, List.length_append] at hlen
  omega

/-- C2, counterexample: at exactly 30 elapsed seconds since the last
adjustment the code does not adjust (its guard is strictly greater than 30),
while the claim prescribes an adjustment at 30; with mean load 90 the claim
requires the multiplier to drop to 0.8 yet the code leaves it at 1. -/
theorem C2_counterexample :
    (update_system_load (initAdaptive 60 60 0) 90 90 30).current_multiplier = 1 ∧
    (update_system_load_claim (initAdaptive 60 60 0) 90 90 30).current_multiplier
      = 4/5 ∧
    ((1 : ℚ) ≠ 4/5) := by
  refine ⟨?_, ?_, by norm_num⟩
  · norm_num [update_system_load, initAdaptive]
  · norm_num [update_system_load_claim, initAdaptive, adjust_rate_limit,
      pushSample, avgLoad]

/-- C2 (amended): when strictly more than 30 seconds have elapsed since the
last adjustment, a call to update_system_load with mean retained load above 80
sets the multiplier to max(0.5, multiplier * 0.8), with mean below 40 to
min(2.0, multiplier * 1.1), and otherwise leaves it unchanged; and starting
from the initial multiplier 1.0 the multiplier stays within [0.5, 2.0] under
every sequence of load inputs. -/
theorem C2_adaptive_multiplier (s : AdaptiveState) (cpu mem now : ℚ)
    (h30 : 30 < now - s.last_adjustment) :
    (80 < avgLoad (pushSample s.load_samples ((cpu + mem) / 2)) →
      (update_system_load s cpu mem now).current_multiplier =
        max (1/2) (s.current_multiplier * (4/5))) ∧
    (avgLoad (pushSample s.load_samples ((cpu + mem) / 2)) < 40 →
      (update_system_load s cpu mem now).current_multiplier =
        min 2 (s.current_multiplier * (11/10))) ∧
    (¬ 80 < avgLoad (pushSample s.load_samples ((cpu + mem) / 2)) →
      ¬ avgLoad (pushSample s.load_samples ((cpu + mem) / 2)) < 40 →
      (update_system_load s cpu mem now).current_multiplier =
        s.current_multiplier) ∧
    (∀ (base window : Nat) (t0 : ℚ) (inputs : List (ℚ × ℚ × ℚ)),
      1/2 ≤ (runUpdates (initAdaptive base window t0) inputs).current_multiplier ∧
        (runUpdates (initAdaptive base window t0) inputs).current_multiplier ≤ 2) := by
  have hne := pushSample_ne_nil s.load_samples ((cpu + mem) / 2)
  refine ⟨?_, ?_, ?_, ?_⟩
  · intro havg
    simp [update_system_load, adjust_rate_limit, h30, hne, havg]
  · intro havg
    have hnot : ¬ 80 < avgLoad (pushSample s.load_samples ((cpu + mem) / 2)) := by
      intro h; linarith
    simp [update_system_load, adjust_rate_limit, h30, hne, havg, hnot]
  · intro hn1 hn2
    simp [update_system_load, adjust_rate_limit, h30, hne, hn1, hn2]
  · intro base window t0 inputs
    exact runUpdates_bounds inputs (initAdaptive base window t0)
      (by norm_num [initAdaptive]) (by norm_num [initAdaptive])

/-- C2, witness: a concrete instantiation of the amended theorem, one sample
of load 90 arriving 31 seconds after the last adjustment tightens the
multiplier from 1 to max(0.5, 1 * 0.8). -/
theorem C2_witness :
    (update_system_load (initAdaptive 60 60 0) 90 90 31).current_multiplier =
      max (1/2) ((initAdaptive 60 60 0).current_multiplier * (4/5)) :=
  (C2_adaptive_multiplier (initAdaptive 60 60 0) 90 90 31
      (by norm_num [initAdaptive])).1
    (by norm_num [initAdaptive, pushSample, avgLoad])

theorem shutdown_flag (sm : SMState) :
    (SMState.shutdown sm).is_shutting_down = true := by
  by_cases h : sm.is_shutting_down <;> simp [SMState.shutdown, h]

theorem iterShutdown_flag (n : Nat) :
    (iterShutdown (n + 1)).is_shutting_down = true := by
  rw [iterShutdown]
  exact shutdown_flag _

/-- C3: the shutdown sequence runs at most once. A call made while
is_shutting_down is set returns having only logged a warning; the first call
from a fresh manager performs exactly the sequence persist shutting_down, set
event, cancel tasks, run cleanup handlers, persist stopped; and across any
number n of (cooperatively serialized) calls the cleanup sequence runs
min n 1 times, i.e. exactly once as soon as at least one call is made. -/
theorem C3_shutdown_once :
    (∀ sm : SMState, sm.is_shutting_down = true →
      SMState.shutdown sm =
        { sm with trace := sm.trace ++ [SAction.warnAlreadyShuttingDown] }) ∧
    ((SMState.shutdown initSM).trace =
      [SAction.persistState "shutting_down", SAction.setShutdownEvent,
       SAction.cancelBackgroundTasks, SAction.runCleanupHandlers,
       SAction.persistState "stopped"]) ∧
    (∀ n : Nat, cleanupRuns (iterShutdown n) = min n 1) := by
  refine ⟨?_, by simp [SMState.shutdown, initSM], ?_⟩
  · intro sm h
    simp [SMState.shutdown, h]
  · intro n
    induction n with
    | zero => simp [iterShutdown, initSM, cleanupRuns]
    | succ k ih =>
      cases k with
      | zero =>
        simp [iterShutdown, initSM, SMState.shutdown, cleanupRuns]
      | succ m =>
        have hf := iterShutdown_flag m
        rw [iterShutdown, SMState.shutdown, if_pos hf]
        simp only [cleanupRuns, List.count_append] at ih ⊢
        have hone : List.count SAction.runCleanupHandlers
            [SAction.warnAlreadyShuttingDown] = 0 := by decide
        rw [hone]
        omega

/-- C3, witness: a manager with the guard already set and one prior sequence
in its trace responds to shutdown with only a warning appended. -/
theorem C3_witness :
    SMState.shutdown (SMState.mk true true [SAction.runCleanupHandlers]) =
      SMState.mk true true
        [SAction.runCleanupHandlers, SAction.warnAlreadyShuttingDown] :=
  C3_shutdown_once.1 (SMState.mk true true [SAction.runCleanupHandlers]) rfl

theorem cleanup_foldl_spec (handlers : List (String × Bool)) :
    ∀ a b : List String,
      handlers.foldl
          (fun acc h => (acc.1 ++ [h.1], if h.2 then acc.2 ++ [h.1] else acc.2))
          (a, b) =
        (a ++ handlers.map Prod.fst,
         b ++ (handlers.filter fun h => h.2).map Prod.fst) := by
  induction handlers with
  | nil => intro a b; simp
  | cons h hs ih =>
    intro a b
    by_cases hh : h.2 = true <;>
      simp [List.foldl_cons, ih, hh, List.filter_cons]

/-- C5: _run_cleanup_handlers invokes every registered handler in
registration order — the invocation log is exactly the list of handler names
— whether or not any handler raises, and the raising handlers are exactly the
ones whose error is caught and logged. -/
theorem C5_cleanup_isolation (handlers : List (String × Bool)) :
    (run_cleanup_handlers handlers).1 = handlers.map Prod.fst ∧
    (run_cleanup_handlers handlers).2 =
      (handlers.filter fun h => h.2).map Prod.fst := by
  rw [run_cleanup_handlers, cleanup_foldl_spec handlers [] []]
  exact ⟨by simp, by simp⟩

theorem health_foldl_spec (checks : List (String × CheckRes)) :
    ∀ (a : List (String × CheckOutcome)) (b : Bool),
      checks.foldl healthStep (a, b) =
        (a ++ checks.map (fun c => (c.1, outcomeOf c.2)),
         b && checks.all fun c => isHealthyRes c.2) := by
  induction checks with
  | nil => intro a b; simp
  | cons c cs ih =>
    intro a b
    obtain ⟨n, r⟩ := c
    rcases r with b0 | e
    · cases b0 <;>
        simp [List.foldl_cons, healthStep, ih, outcomeOf, isHealthyRes,
          Bool.and_assoc]
    · simp [List.foldl_cons, healthStep, ih, outcomeOf, isHealthyRes]

/-- C6: run_health_checks yields the per-check results pointwise — one result
per registered check, in order, with the same names — never propagating a
raising check; a raising check contributes a result of status error capturing
its message; and the aggregate overall_status is healthy exactly when every
check returned a truthy value, any falsy or raising check making it
unhealthy. -/
theorem C6_health_checks (checks : List (String × CheckRes)) :
    ((run_health_checks checks).checks =
      checks.map fun c => (c.1, outcomeOf c.2)) ∧
    ((run_health_checks checks).checks.map Prod.fst = checks.map Prod.fst) ∧
    (∀ n e, (n, CheckRes.err e) ∈ checks →
      (n, CheckOutcome.mk "error" (some e)) ∈ (run_health_checks checks).checks) ∧
    ((run_health_checks checks).overall_status =
      if (checks.all fun c => isHealthyRes c.2) then "healthy"
      else "unhealthy") := by
  have hspec := health_foldl_spec checks [] true
  refine ⟨?_, ?_, ?_, ?_⟩
  · simp [run_health_checks, hspec]
  · simp [run_health_checks, hspec, List.map_map, Function.comp]
  · intro n e hmem
    have h1 : (run_health_checks checks).checks =
        checks.map fun c => (c.1, outcomeOf c.2) := by
      simp [run_health_checks, hspec]
    rw [h1]
    exact List.mem_map.mpr ⟨(n, CheckRes.err e), hmem, by simp [outcomeOf]⟩
  · have h2 : (List.foldl healthStep ([], true) checks).2 =
        (checks.all fun c => isHealthyRes c.2) := by
      rw [hspec]
      simp
    simp only [run_health_checks]
    rw [h2]

/-- C6, witness: a single raising check is reported as an error result with
its message captured, instantiating the membership conjunct concretely. -/
theorem C6_witness :
    ("db", CheckOutcome.mk "error" (some "boom")) ∈
      (run_health_checks [("db", CheckRes.err "boom")]).checks :=
  (C6_health_checks [("db", CheckRes.err "boom")]).2.2.1 "db" "boom" (by simp)

/-- C10: with no registered checks, run_health_checks reports aggregate
healthy over an empty per-check results map. -/
theorem C10_empty_health_checks :
    run_health_checks [] = { overall_status := "healthy", checks := [] } := rfl

theorem dictGet_dictSet {V : Type} (m : List (String × V)) (k : String) (v : V) :
    dictGet (dictSet m k v) k = some v := by
  induction m with
  | nil => simp [dictSet, dictGet]
  | cons p rest ih =>
    by_cases h : p.1 = k
    · simp [dictSet, dictGet, h]
    · simp [dictSet, dictGet, h, ih]

/-- C8: a set of a key immediately followed by a get of the same key returns
the written value, whatever the write outcome on disk. -/
theorem C8_set_then_get {V : Type} (ps : PState V) (k : String) (v d : V)
    (o : WriteOutcome) :
    (ps.set k v o).get k d = v := by
  simp [PState.set, PState.get, dictGet_dictSet]

/-- C9: deleting an absent key is a complete no-op — the in-memory dict, the
on-disk pair, and the saved flag all report no change and no file rewrite. -/
theorem C9_delete_missing_key {V : Type} (ps : PState V) (k : String)
    (o : WriteOutcome) (h : dictContains ps.state k = false) :
    ps.delete k o = (ps, false) := by
  simp [PState.delete, h]

/-- C9, witness: deleting the absent key b from a store holding only a leaves
the store untouched and does not rewrite the file. -/
theorem C9_witness :
    PState.delete (PState.mk [("a", (1 : Nat))] (Fs.mk none none)) "b"
        WriteOutcome.ok =
      (PState.mk [("a", (1 : Nat))] (Fs.mk none none), false) :=
  C9_delete_missing_key (PState.mk [("a", (1 : Nat))] (Fs.mk none none)) "b"
    WriteOutcome.ok (by decide)

/-- C4: save_state writes the new content to the primary path after renaming
any existing primary to the backup path; on a failing write it restores the
backup over the primary, so with an existing primary the primary is unchanged
by a failed save; durable state read back by load_state is the new state on
success and the prior durable state on failure (assuming the reachable-state
invariant that a backup never exists without a primary); the invariant is
preserved; and load_state maps a missing or corrupt primary to the empty
state, never failing. -/
theorem C4_save_restore_load {V : Type} (fs : Fs V) (st : List (String × V))
    (o : WriteOutcome) (hinv : fs.primary = none → fs.backup = none) :
    ((save_state fs st WriteOutcome.ok).primary = some (FileContent.good st)) ∧
    (∀ c, fs.primary = some c →
      (save_state fs st WriteOutcome.ok).backup = some c) ∧
    (∀ c, o ≠ WriteOutcome.ok → fs.primary = some c →
      (save_state fs st o).primary = some c) ∧
    (load_state (save_state fs st o) =
      if o = WriteOutcome.ok then st else load_state fs) ∧
    ((save_state fs st o).primary = none → (save_state fs st o).backup = none) ∧
    (∀ b : Option (FileContent V), load_state (Fs.mk none b) = []) ∧
    (∀ b : Option (FileContent V),
      load_state (Fs.mk (some FileContent.corrupt) b) = []) := by
  obtain ⟨p, b⟩ := fs
  simp only [] at hinv
  refine ⟨?_, ?_, ?_, ?_, ?_, ?_, ?_⟩
  · cases p <;> simp [save_state]
  · intro c hc
    simp only [] at hc
    subst hc
    simp [save_state]
  · intro c ho hc
    simp only [] at hc
    subst hc
    cases o with
    | ok => exact absurd rfl ho
    | failTruncating => simp [save_state]
    | failMissing => simp [save_state]
  · cases o with
    | ok => cases p <;> simp [save_state, load_state]
    | failTruncating =>
      cases p with
      | none =>
        have hb : b = none := by simpa using hinv (by simp)
        subst hb
        simp [save_state, load_state]
      | some c => simp [save_state, load_state]
    | failMissing =>
      cases p with
      | none =>
        have hb : b = none := by simpa using hinv (by simp)
        subst hb
        simp [save_state, load_state]
      | some c => simp [save_state, load_state]
  · cases o with
    | ok => cases p <;> simp [save_state]
    | failTruncating =>
      cases p with
      | none =>
        have hb : b = none := by simpa using hinv (by simp)
        subst hb
        simp [save_state]
      | some c => simp [save_state]
    | failMissing =>
      cases p with
      | none =>
        have hb : b = none := by simpa using hinv (by simp)
        subst hb
        simp [save_state]
      | some c => simp [save_state]
  · intro b0; simp [load_state]
  · intro b0; simp [load_state]

/-- C4, witness: a failing rewrite of a store whose primary held x leaves the
durable state read back by load_state equal to that prior state. -/
theorem C4_witness :
    load_state (save_state
        (Fs.mk (some (FileContent.good [("x", (1 : Nat))])) none)
        [("y", 2)] WriteOutcome.failTruncating) = [("x", 1)] := by
  have h := (C4_save_restore_load
      (Fs.mk (some (FileContent.good [("x", (1 : Nat))])) none) [("y", 2)]
      WriteOutcome.failTruncating (by simp)).2.2.2.1
  simpa [load_state] using h

/-- C7: the middleware never raises on a rejected admission — it returns a
status 429 response whose headers are exactly X-RateLimit-Limit,
X-RateLimit-Remaining, X-RateLimit-Reset and a Retry-After equal to the
selected limiter's window length in seconds; an admitted request receives the
downstream response unchanged except for the same X-RateLimit headers
appended. -/
theorem C7_middleware_response (path : String) (tw ip : Nat × Nat × List ℚ)
    (now : ℚ) (next_response : Resp) (sel : Nat × Nat × List ℚ)
    (r : Bool × RateInfo × List ℚ)
    (hsel : sel = select_limiter path tw ip)
    (hr : r = is_allowed sel.1 sel.2.1 now sel.2.2) :
    (r.1 = false →
      rate_limit_middleware path tw ip now next_response =
        Resp.mk 429
          [("X-RateLimit-Limit", toString r.2.1.limit),
           ("X-RateLimit-Remaining", toString r.2.1.remaining),
           ("X-RateLimit-Reset", toString r.2.1.reset),
           ("Retry-After", toString sel.2.1)]
          "Rate limit exceeded") ∧
    (r.1 = true →
      rate_limit_middleware path tw ip now next_response =
        Resp.mk next_response.status
          (next_response.headers ++
            [("X-RateLimit-Limit", toString r.2.1.limit),
             ("X-RateLimit-Remaining", toString r.2.1.remaining),
             ("X-RateLimit-Reset", toString r.2.1.reset)])
          next_response.body) := by
  subst hsel
  subst hr
  constructor <;> intro h <;> simp [rate_limit_middleware, h]

/-- C7, witness: with the general limiter at limit 0 the request is rejected
and the middleware answers with status 429. -/
theorem C7_witness :
    (rate_limit_middleware "/a" (30, 60, ([] : List ℚ)) (0, 60, ([] : List ℚ))
        5 (Resp.mk 200 [] "ok")).status = 429 := by
  have h := (C7_middleware_response "/a" (30, 60, ([] : List ℚ))
      (0, 60, ([] : List ℚ)) 5 (Resp.mk 200 [] "ok") _ _ rfl rfl).1
    (by simp [select_limiter, is_allowed, evictOld])
  rw [h]
